import Mathlib

/-!
Verification of the pixels collaborative-canvas service against its
natural-language specification.

The definitions below are a shallow embedding of the Python sources:

* `src/pixels/canvas.py` — the canvas cache engine (`Canvas._populate_cache`,
  `Canvas.is_cache_out_of_date`, `Canvas.sync_cache`, `Canvas.get_pixel`);
* `src/april/canvas.py` — the earlier (April) canvas cache implementation
  (`_empty_cache`, `parse_rgb`, `update_cache`, `reload_cache`);
* `src/pixels/pixels.py` — the monolithic app's `authorized` and
  `reset_user_token`;
* `src/pixels/utils/auth.py` — `JWTBearer.__call__`, `reset_user_token`,
  `generate_access_token`;
* `src/pixels/endpoints/moderation.py` — `ban_users`;
* `src/pixels/endpoints/general.py` — `get_pixel`;
* `src/pixels/utils/ratelimits.py` — the Redis-backed rate-limit bucket
  (`__BucketBase` / `UserRedis`).

Machine integers are mapped to `Int`/`Nat`, byte strings to `List Nat`,
database tables to functions and lists, Redis to explicit state records,
and wall-clock instants to `Int` parameters.  Fallible Python code (raised
exceptions) is mapped to `Option`/`Except`.
-/

/-! ## Hex parsing (Python `bytes.fromhex` and `int(s, 16)`) -/

/-- Value of one hexadecimal digit, `none` for any other character. -/
def hexVal (c : Char) : Option Nat :=
  if '0' ≤ c ∧ c ≤ '9' then some (c.toNat - '0'.toNat)
  else if 'a' ≤ c ∧ c ≤ 'f' then some (c.toNat - 'a'.toNat + 10)
  else if 'A' ≤ c ∧ c ≤ 'F' then some (c.toNat - 'A'.toNat + 10)
  else none

/-- Pairs of hex digits to bytes; `none` on an odd length or a bad digit.
This is Python `bytes.fromhex` restricted to strings without whitespace,
which is the shape the service stores (six hex characters per pixel). -/
def bytesFromHexChars : List Char → Option (List Nat)
  | [] => some []
  | c1 :: c2 :: rest => do
      let hi ← hexVal c1
      let lo ← hexVal c2
      let tail ← bytesFromHexChars rest
      pure ((hi * 16 + lo) :: tail)
  | [_] => none

/-- Python `bytes.fromhex(s)` as used on the `rgb` column. -/
def bytes_fromhex (s : String) : Option (List Nat) :=
  bytesFromHexChars s.data

/-- Python `int(s, 16)` on a string of hex digits (`none` when empty or a
digit is invalid, where Python raises `ValueError`). -/
def hexNat (cs : List Char) : Option Nat :=
  if cs.isEmpty then none
  else cs.foldlM (fun acc c => (hexVal c).map (fun v => acc * 16 + v)) 0

/-! ## The pixels canvas cache (`src/pixels/canvas.py`) -/

/-- One row of the `current_pixel` projection as fetched by
`Canvas._populate_cache` (`SELECT x, y, rgb FROM current_pixel`). -/
structure CPRecord where
  x : Nat
  y : Nat
  rgb : String
deriving DecidableEq

/-- Python `bytearray` slice assignment `buf[a:b] = v` for `0 ≤ a ≤ b`:
the elements at indices `[a, b)` are replaced by `v` (list splice). -/
def sliceAssign (buf : List Nat) (a b : Nat) (v : List Nat) : List Nat :=
  buf.take a ++ v ++ buf.drop b

/-- Embeds `Canvas._populate_cache` (src/pixels/canvas.py lines 39-59):
`cache = bytearray(Sizes.width * Sizes.height * 3)` — a ZERO-initialised
buffer — then for each `current_pixel` record with `x < W` and `y < H`,
`position = y*W + x` and `cache[position*3:(position+1)*3] =
bytes.fromhex(rgb)`.  Returns `none` when `bytes.fromhex` raises. -/
def populate_cache (W H : Nat) (records : List CPRecord) : Option (List Nat) :=
  records.foldlM
    (fun buf r =>
      (bytes_fromhex r.rgb).map (fun v =>
        let position := r.y * W + r.x
        sliceAssign buf (position * 3) (position * 3 + 3) v))
    (List.replicate (W * H * 3) 0)

/-- The `cache_state` singleton row together with the Redis canvas value:
`cache` is the byte string stored under the canvas-cache key (`none` when
the key is missing). -/
structure CacheState where
  cache : Option (List Nat)
  last_modified : Int
  last_synced : Int
deriving DecidableEq

/-- Embeds `Canvas.is_cache_out_of_date` (src/pixels/canvas.py lines 61-69):
`if not cache or len(cache)//3 != Sizes.width*Sizes.height: return True`,
else `return last_modified > last_synced`.  Note the guard divides the
length by 3 (floor) before comparing. -/
def is_cache_out_of_date (W H : Nat) (cs : CacheState) : Bool :=
  match cs.cache with
  | none => true
  | some c =>
      if c.length = 0 ∨ c.length / 3 ≠ W * H then true
      else decide (cs.last_modified > cs.last_synced)

/-- One append-only row of the `pixel_history` table. -/
structure PHRow where
  pixel_history_id : Nat
  x : Nat
  y : Nat
  rgb : String
  user_id : Int
  deleted : Bool
deriving DecidableEq

/-- Modelled from the spec: the SQL view `current_pixel` is not among the
repository's files (only `Canvas._populate_cache` queries it); per the spec
it is the "logical projection over PixelHistory: for each (x, y), the most
recent non-deleted entry".  Picks the non-deleted row of greatest
`pixel_history_id` at the coordinate. -/
def currentPixelAt (hist : List PHRow) (x y : Nat) : Option PHRow :=
  (hist.filter (fun r => r.x = x ∧ r.y = y ∧ r.deleted = false)).foldl
    (fun best r =>
      match best with
      | none => some r
      | some b => if b.pixel_history_id < r.pixel_history_id then some r else some b)
    none

/-- The record list `Canvas._populate_cache` fetches: the `current_pixel`
rows restricted by `WHERE x < W AND y < H`, one per grid coordinate that
has a non-deleted placement. -/
def rebuildRecords (W H : Nat) (hist : List PHRow) : List CPRecord :=
  (List.range (W * H)).filterMap (fun i =>
    (currentPixelAt hist (i % W) (i / W)).map (fun r => ⟨i % W, i / W, r.rgb⟩))

/-- Sequential (single worker, sync lock free) embedding of
`Canvas.sync_cache` (src/pixels/canvas.py lines 71-117): when `skip_check`
is set or the cache is out of date, the lock is acquired, the cache is
rebuilt by `_populate_cache` (which also sets `last_synced = now()`), and
the loop exits; otherwise nothing happens.  `none` models an exception
escaping `_populate_cache`. -/
def sync_cache (W H : Nat) (hist : List PHRow) (cs : CacheState) (now : Int)
    (skip_check : Bool) : Option CacheState :=
  if skip_check ∨ is_cache_out_of_date W H cs then
    (populate_cache W H (rebuildRecords W H hist)).map (fun buf =>
      { cache := some buf, last_modified := cs.last_modified, last_synced := now })
  else some cs

/-- Redis `GETRANGE key a b`: negative offsets count from the end of the
value, the range is clamped to the value and is inclusive on both ends. -/
def redisGetrange (buf : List Nat) (a b : Int) : List Nat :=
  let n : Int := buf.length
  let a2 : Int := if a < 0 then max (n + a) 0 else a
  let b2 : Int := min (if b < 0 then n + b else b) (n - 1)
  if a2 > b2 then []
  else (buf.drop a2.toNat).take (b2 - a2 + 1).toNat

/-- Byte offset `(y*W + x)*3` computed by `Canvas.get_pixel` and
`Canvas.set_pixel`.  `x` and `y` are Python ints, so the offset may be
negative. -/
def pixelPosition (W : Nat) (x y : Int) : Int :=
  (y * W + x) * 3

/-- Embeds `Canvas.get_pixel` (src/pixels/canvas.py lines 145-148):
`position = (y * Sizes.width + x) * 3` followed by
`redis.getrange(key, position, position+2)`. -/
def canvas_get_pixel (W : Nat) (buf : List Nat) (x y : Int) : List Nat :=
  redisGetrange buf (pixelPosition W x y) (pixelPosition W x y + 2)

/-! ## The April canvas cache (`src/april/canvas.py`) -/

/-- Embeds `parse_rgb` (src/april/canvas.py): the three channels of a
six-character hex string, via `int(rgb[:2], 16)`, `int(rgb[2:4], 16)`,
`int(rgb[4:], 16)`. -/
def parse_rgb (s : String) : Option (Nat × Nat × Nat) := do
  let cs := s.data
  let r ← hexNat (cs.take 2)
  let g ← hexNat ((cs.drop 2).take 2)
  let b ← hexNat (cs.drop 4)
  pure (r, g, b)

/-- Embeds `update_cache` (src/april/canvas.py): `pixel = (y*width + x)*3`
and the three bytes are stored at `pixel`, `pixel+1`, `pixel+2`. -/
def april_update_cache (W : Nat) (cache : List Nat) (x y : Nat) (rgb : String) :
    Option (List Nat) :=
  (parse_rgb rgb).map (fun colors =>
    let pixel := (y * W + x) * 3
    ((cache.set pixel colors.1).set (pixel + 1) colors.2.1).set (pixel + 2) colors.2.2)

/-- Embeds `reload_cache` together with `_empty_cache`
(src/april/canvas.py lines 10-13): every byte of the cache is first set to
255 — the source comments "ensure the default background is white" — and
each `current_pixel` row is then written over it. -/
def april_reload_cache (W H : Nat) (records : List CPRecord) : Option (List Nat) :=
  records.foldlM
    (fun cache r => april_update_cache W cache r.x r.y r.rgb)
    (List.replicate (W * H * 3) 255)

/-! ## Sizes (`src/pixels/constants.py`, class `Sizes`) -/

def Sizes_MULTIPLYER : Nat := 17
def Sizes_WIDTH : Nat := 16 * Sizes_MULTIPLYER
def Sizes_HEIGHT : Nat := 9 * Sizes_MULTIPLYER

/-! ## Users and authorization states -/

/-- One row of the `users` table. -/
structure UserRow where
  is_banned : Bool
  is_mod : Bool
  key_salt : String
deriving DecidableEq

/-- The `users` table, keyed by `user_id` (a Python int / DB bigint). -/
abbrev Users := Int → Option UserRow

/-- The `AuthState` outcomes.  `NO_TOKEN`, `BAD_HEADER`, `INVALID_TOKEN`,
`BANNED`, `MODERATOR` and `USER` are the members of the enum in
`src/pixels/models.py`; `WRONG_TOKEN` and `NEEDS_MODERATOR` are the two
further outcomes `src/pixels/utils/auth.py` raises (the models.py snapshot
in the repository predates them). -/
inductive AuthState where
  | NO_TOKEN
  | BAD_HEADER
  | INVALID_TOKEN
  | WRONG_TOKEN
  | BANNED
  | NEEDS_MODERATOR
  | MODERATOR
  | USER
deriving DecidableEq

/-! ## The monolithic app's token logic (`src/pixels/pixels.py`) -/

/-- The payload of a token minted by `pixels.py`'s `reset_user_token`:
`dict(id=user_id, salt=token_salt)`. -/
structure TokenData where
  id : Int
  salt : String
deriving DecidableEq

/-- The `AuthResult` named tuple of `src/pixels/models.py`. -/
structure AuthResult where
  state : AuthState
  user_id : Option Int
deriving DecidableEq

/-- Embeds the decoded-token branch of `authorized`
(src/pixels/pixels.py lines 219-232): fetch the user row; `INVALID_TOKEN`
when the row is missing or its `key_salt` differs from the token's salt;
then `BANNED`, `MODERATOR` or `USER` by the row's flags. -/
def authorizedDecoded (users : Users) (td : TokenData) : AuthResult :=
  match users td.id with
  | none => ⟨.INVALID_TOKEN, none⟩
  | some row =>
      if row.key_salt ≠ td.salt then ⟨.INVALID_TOKEN, none⟩
      else if row.is_banned then ⟨.BANNED, some td.id⟩
      else if row.is_mod then ⟨.MODERATOR, some td.id⟩
      else ⟨.USER, some td.id⟩

/-- The Authorization header after `get_authorization_scheme_param`:
the scheme word and the result of `jwt.decode` on the credential
(`none` when decoding raises `JWTError`). -/
structure ParsedHeader where
  scheme : String
  decoded : Option TokenData

/-- Embeds `authorized` (src/pixels/pixels.py lines 208-232) for a request
whose header has been split and whose token the JWT library has attempted
to decode. -/
def authorized (users : Users) (header : Option ParsedHeader) : AuthResult :=
  match header with
  | none => ⟨.NO_TOKEN, none⟩
  | some h =>
      if h.scheme.toLower ≠ "bearer" then ⟨.BAD_HEADER, none⟩
      else
        match h.decoded with
        | none => ⟨.INVALID_TOKEN, none⟩
        | some td => authorizedDecoded users td

/-- The upsert `reset_user_token` executes:
`INSERT INTO users (user_id, key_salt, is_mod) VALUES ($1, $2, $3)
ON CONFLICT (user_id) DO UPDATE SET key_salt=$2`.  A fresh row has
`is_banned` false (table default); an existing row keeps every column but
`key_salt`. -/
def upsertSalt (users : Users) (user_id : Int) (token_salt : String) (is_mod : Bool) :
    Users :=
  fun uid =>
    if uid = user_id then
      match users uid with
      | some row => some { row with key_salt := token_salt }
      | none => some ⟨false, is_mod, token_salt⟩
    else users uid

/-- Embeds `reset_user_token` (src/pixels/pixels.py lines 235-257):
raise `PermissionError` when the user is banned (a missing row reads as
not banned), otherwise upsert the freshly generated salt and return the
token payload `dict(id=user_id, salt=token_salt)`.  `token_salt` stands
for the value of `secrets.token_urlsafe(16)`; `is_mod` for
`user_id in constants.mods`. -/
def pixels_reset_user_token (users : Users) (user_id : Int) (token_salt : String)
    (is_mod : Bool) : Except Unit (Users × TokenData) :=
  if (users user_id).elim false (fun r => r.is_banned) then .error ()
  else .ok (upsertSalt users user_id token_salt is_mod, ⟨user_id, token_salt⟩)

/-! ## The router app's token logic (`src/pixels/utils/auth.py`) -/

/-- The JWT payload minted by `utils/auth.py`:
`{id, grant_type, expiration, salt}`. -/
structure JwtPayload where
  id : Int
  grant_type : String
  expiration : Int
  salt : String
deriving DecidableEq

/-- Outcome of `JWTBearer.__call__`: either the request proceeds with
`request.state.user_id` set, or an `HTTPException(status, detail)` is
raised. -/
inductive BearerOutcome where
  | ok (user_id : Int)
  | httpError (status : Nat) (detail : AuthState)
deriving DecidableEq

/-- Embeds `JWTBearer.__call__` (src/pixels/utils/auth.py lines 23-53)
after `jwt.decode` (`none` models `JWTError`): `INVALID_TOKEN` when the
user row is missing, the salt differs or the token is expired
(`int(expiration) < now`); `WRONG_TOKEN` when `grant_type` is not
"refresh_token"; `BANNED`; `NEEDS_MODERATOR` on a mod endpoint for a
non-mod; else the request proceeds. -/
def jwtBearerCheckDecoded (is_mod_endpoint : Bool) (users : Users) (now : Int)
    (td : JwtPayload) : BearerOutcome :=
  match users td.id with
  | none => .httpError 403 .INVALID_TOKEN
  | some row =>
      if row.key_salt ≠ td.salt ∨ td.expiration < now then
        .httpError 403 .INVALID_TOKEN
      else if td.grant_type ≠ "refresh_token" then .httpError 403 .WRONG_TOKEN
      else if row.is_banned then .httpError 403 .BANNED
      else if is_mod_endpoint ∧ ¬ row.is_mod then .httpError 403 .NEEDS_MODERATOR
      else .ok td.id

/-- `JWTBearer.__call__` including the decode step: `none` models a
credential `jwt.decode` rejects. -/
def jwtBearerCheck (is_mod_endpoint : Bool) (users : Users) (now : Int)
    (decoded : Option JwtPayload) : BearerOutcome :=
  match decoded with
  | none => .httpError 403 .INVALID_TOKEN
  | some td => jwtBearerCheckDecoded is_mod_endpoint users now td

/-- Embeds `reset_user_token` (src/pixels/utils/auth.py lines 56-98):
raise `PermissionError` when the user is banned, else upsert the fresh
salt and mint the refresh token
`{id, grant_type: "authorization_code", expiration: now + REFRESH_EXPIRES_IN,
salt}`.  `refresh_expires_in` stands for
`Authorization.REFRESH_EXPIRES_IN` (its constants module is not in the
repository snapshot), `token_salt` for `secrets.token_urlsafe(16)` and
`is_mod` for `user_id in Server.MODS`. -/
def auth_reset_user_token (users : Users) (user_id : Int) (token_salt : String)
    (is_mod : Bool) (now refresh_expires_in : Int) :
    Except Unit (Users × JwtPayload) :=
  if (users user_id).elim false (fun r => r.is_banned) then .error ()
  else
    .ok (upsertSalt users user_id token_salt is_mod,
      ⟨user_id, "authorization_code", now + refresh_expires_in, token_salt⟩)

/-- Failure modes of `generate_access_token`: `permissionError` for a
banned user, `httpError` for the raised `HTTPException`s, and
`internalError` for the `TypeError` the source hits when
`conn.fetchrow` returns no row (`row['is_banned']` on `None`). -/
inductive GenError where
  | permissionError
  | httpError (status : Nat) (detail : AuthState)
  | internalError
deriving DecidableEq

/-- Embeds `generate_access_token` (src/pixels/utils/auth.py lines
101-140) after `jwt.decode` of the refresh token: check ban and salt,
reset the refresh token when it has expired, and mint the access token
`{id, grant_type: "refresh_token", expiration: now + ACCESS_EXPIRES_IN,
salt: row.key_salt}`.  Returns the access token, the (possibly renewed)
refresh token payload and the users table. -/
def generate_access_token_decoded (users : Users) (td : JwtPayload)
    (now access_expires_in refresh_expires_in : Int) (token_salt : String)
    (is_mod : Bool) : Except GenError (JwtPayload × JwtPayload × Users) :=
  match users td.id with
  | none => .error .internalError
  | some row =>
      if row.is_banned then .error .permissionError
      else if row.key_salt ≠ td.salt then .error (.httpError 403 .INVALID_TOKEN)
      else if td.expiration < now then
        match auth_reset_user_token users td.id token_salt is_mod now
            refresh_expires_in with
        | .error _ => .error .permissionError
        | .ok (users2, newRefresh) =>
            .ok (⟨td.id, "refresh_token", now + access_expires_in, newRefresh.salt⟩,
              newRefresh, users2)
      else
        .ok (⟨td.id, "refresh_token", now + access_expires_in, row.key_salt⟩,
          td, users)

/-- `generate_access_token` including the decode of the refresh token. -/
def generate_access_token (users : Users) (decoded : Option JwtPayload)
    (now access_expires_in refresh_expires_in : Int) (token_salt : String)
    (is_mod : Bool) : Except GenError (JwtPayload × JwtPayload × Users) :=
  match decoded with
  | none => .error (.httpError 403 .INVALID_TOKEN)
  | some td =>
      generate_access_token_decoded users td now access_expires_in
        refresh_expires_in token_salt is_mod

/-! ## Moderation (`src/pixels/endpoints/moderation.py`) -/

/-- The `ModBan` response model: users banned, users not found. -/
structure ModBan where
  banned : List Int
  not_found : List Int
deriving DecidableEq

/-- The database plus canvas-cache state a request sees. -/
structure AppDB where
  users : Users
  history : List PHRow
  cacheState : CacheState

/-- The ids the `SELECT * FROM users WHERE user_id=any($1)` round trip
yields for an input list: each distinct input id that has a `users` row
(the SELECT returns table rows, so duplicates of the input collapse;
row order is left as input order). -/
def dbUsersOf (users : Users) (user_list : List Int) : List Int :=
  user_list.dedup.filter (fun u => (users u).isSome)

/-- `set(users) - set(db_users)`: the distinct input ids with no row. -/
def nonDbUsersOf (users : Users) (user_list : List Int) : List Int :=
  user_list.dedup.filter (fun u => (users u).isNone)

/-- The `UPDATE users SET is_banned=TRUE WHERE user_id=any($1)` effect. -/
def banRows (users : Users) (ids : List Int) : Users :=
  fun uid =>
    if uid ∈ ids then (users uid).map (fun r => { r with is_banned := true })
    else users uid

/-- The `UPDATE pixel_history SET deleted=TRUE WHERE user_id=any($1)`
effect. -/
def deleteHistoryOf (hist : List PHRow) (ids : List Int) : List PHRow :=
  hist.map (fun r => if r.user_id ∈ ids then { r with deleted := true } else r)

/-- Embeds `ban_users` (src/pixels/endpoints/moderation.py lines 48-67):
look up which listed users exist, mark them banned and their
`pixel_history` rows deleted inside one transaction, then
`sync_cache(conn, skip_check=True)`, and answer with
`ModBan(banned=db_users, not_found=non_db_users)`.  `none` models an
exception escaping the rebuild. -/
def ban_users (W H : Nat) (now : Int) (db : AppDB) (user_list : List Int) :
    Option (AppDB × ModBan) :=
  (sync_cache W H (deleteHistoryOf db.history (dbUsersOf db.users user_list))
      db.cacheState now true).map (fun cs2 =>
    ({ users := banRows db.users (dbUsersOf db.users user_list),
       history := deleteHistoryOf db.history (dbUsersOf db.users user_list),
       cacheState := cs2 },
     ⟨dbUsersOf db.users user_list, nonDbUsersOf db.users user_list⟩))

/-! ## The GET /pixel endpoint (`src/pixels/endpoints/general.py`) -/

/-- Embeds the `get_pixel` handler (src/pixels/endpoints/general.py lines
89-132): reject with HTTP 400 only when `x >= Sizes.WIDTH or
y >= Sizes.HEIGHT`, otherwise return `canvas.get_pixel(x, y)`.  `x` and
`y` are plain ints — the handler has no lower bound check. -/
def get_pixel_endpoint (W H : Nat) (buf : List Nat) (x y : Int) :
    Except Nat (List Nat) :=
  if x ≥ (W : Int) ∨ y ≥ (H : Int) then .error 400
  else .ok (canvas_get_pixel W buf x y)

/-- The path the rate limiter registers the sibling HEAD endpoint at
(src/pixels/utils/ratelimits.py line 112):
`@app.head("/" + route_callback.__name__)`. -/
def head_route_path (handlerName : String) : String := "/" ++ handlerName

/-- The URL path of the single-pixel GET route
(src/pixels/endpoints/general.py line 89: `@router.get("/pixel")`). -/
def get_pixel_route_path : String := "/pixel"

/-- The name of the function handling GET /pixel
(src/pixels/endpoints/general.py line 95: `async def get_pixel`). -/
def get_pixel_handler_name : String := "get_pixel"

/-! ## The Redis rate limiter (`src/pixels/utils/ratelimits.py`)

The per-(route, user) Redis state of a `UserRedis` bucket: the sorted set
`interaction-{route}-{user}` (member scores are expiry instants,
`time() + time_unit`), its key TTL (refreshed to `time_unit` on every
record), and the `cooldown-{route}-{user}` key with its TTL. -/

/-- The `LIMITS` named tuple of `__BucketBase.__init__`. -/
structure Limits where
  requests : Int
  time_unit : Int
  cooldown : Int
deriving DecidableEq

/-- The Redis state behind one (route, user) pair: the sorted-set member
scores, the instant the interaction key expires (none = key absent), and
the instant the cooldown key expires (none = key absent). -/
structure BucketState where
  window : List Int
  keyExpireAt : Option Int
  cooldownUntil : Option Int
deriving DecidableEq

/-- A freshly created bucket state: no Redis keys yet. -/
def BucketState.empty : BucketState := ⟨[], none, none⟩

/-- The members the interaction sorted set holds at instant `now`: empty
once the key TTL has passed (Redis drops the whole key), the stored
members otherwise. -/
def liveWindow (s : BucketState) (now : Int) : List Int :=
  match s.keyExpireAt with
  | none => []
  | some e => if now < e then s.window else []

/-- Embeds `UserRedis._record_interaction`:
`zadd(key, time() + time_unit, uuid)` then `expire(key, time_unit)`. -/
def record_interaction (L : Limits) (s : BucketState) (now : Int) : BucketState :=
  { window := liveWindow s now ++ [now + L.time_unit],
    keyExpireAt := some (now + L.time_unit),
    cooldownUntil := s.cooldownUntil }

/-- Embeds `UserRedis._calculate_remaining_requests`:
`zremrangebyscore(key, max=time())` prunes members whose score is ≤ now,
then `remaining = LIMITS.requests - zcount(key)`.  Returns the remaining
count and the pruned state. -/
def calculate_remaining_requests (L : Limits) (s : BucketState) (now : Int) :
    Int × BucketState :=
  let pruned := (liveWindow s now).filter (fun sc => now < sc)
  (L.requests - pruned.length, { s with window := pruned })

/-- Embeds `UserRedis._check_cooldown`: `redis.get(cooldown_key)` is
truthy exactly while the key lives. -/
def check_cooldown (s : BucketState) (now : Int) : Bool :=
  match s.cooldownUntil with
  | none => false
  | some e => decide (now < e)

/-- Embeds `UserRedis._trigger_cooldown`:
`set(cooldown_key, 1, expire=LIMITS.cooldown)`. -/
def trigger_cooldown (L : Limits) (s : BucketState) (now : Int) : BucketState :=
  { s with cooldownUntil := some (now + L.cooldown) }

/-- Embeds `UserRedis._get_remaining_cooldown`: `redis.ttl(cooldown_key)`
(the seconds left; -2 for an absent or expired key). -/
def get_remaining_cooldown (s : BucketState) (now : Int) : Int :=
  match s.cooldownUntil with
  | none => -2
  | some e => if now < e then e - now else -2

/-- Embeds `UserRedis._reset_time`: `zrange(key, 0, 0)` yields the member
of least score; the result is that score minus `time()`, or -1 when the
set is empty. -/
def reset_time (s : BucketState) (now : Int) : Int :=
  match (liveWindow s now).min? with
  | none => -1
  | some m => m - now

/-- Outcome of `__BucketBase._increment` (src/pixels/utils/ratelimits.py
lines 201-212): `onCooldown` models the raised `OnCooldown(remaining)`;
`ok` carries the remaining count the request state caches, which
`add_headers` reuses. -/
inductive IncrementResult where
  | ok (s : BucketState) (remaining : Int)
  | onCooldown (s : BucketState) (remaining : Int)
deriving DecidableEq

/-- Embeds `__BucketBase._increment`: fail fast while on cooldown;
otherwise record the interaction, recompute the remaining count, and
trigger a cooldown (then fail) when it went below zero. -/
def increment (L : Limits) (s : BucketState) (now : Int) : IncrementResult :=
  if check_cooldown s now then .onCooldown s (get_remaining_cooldown s now)
  else
    let s1 := record_interaction L s now
    let rs := calculate_remaining_requests L s1 now
    if rs.1 < 0 then
      let s3 := trigger_cooldown L rs.2 now
      .onCooldown s3 (get_remaining_cooldown s3 now)
    else .ok rs.2 rs.1

/-- The `Requests-Remaining` / `Requests-Limit` / `Requests-Period` /
`Requests-Reset` headers `add_headers` attaches. -/
structure RLHeaders where
  remaining : Int
  limit : Int
  period : Int
  reset : Int
deriving DecidableEq

/-- Response of the wrapped route `caller` (src/pixels/utils/ratelimits.py
lines 130-187): either the route body ran and the quota headers were
attached, or the rate limiter answered 429 with a `Cooldown-Reset`
header and the body never ran. -/
inductive CallerResult where
  | routeRan (status : Nat) (headers : RLHeaders) (s : BucketState)
  | cooldown429 (cooldownReset : Int) (s : BucketState)
deriving DecidableEq

/-- The bucket state a caller result leaves behind. -/
def CallerResult.finalState : CallerResult → BucketState
  | .routeRan _ _ s => s
  | .cooldown429 _ s => s

/-- The quota headers of a caller result, when the route ran. -/
def CallerResult.quotaHeaders : CallerResult → Option RLHeaders
  | .routeRan _ h _ => some h
  | .cooldown429 _ _ => none

/-- Embeds the wrapped route `caller` of `__BucketBase.__call__`
(src/pixels/utils/ratelimits.py lines 130-187), with the route body
abstracted as an effect on a state `α` returning an HTTP status.  When
`bypass` holds the rate limit checks are skipped; otherwise `_increment`
runs, and `OnCooldown` yields the 429 response without executing the
body.  `count_failed` mirrors the stored `COUNT_FAILED` flag, which the
caller never consults (no code path removes a recorded interaction or
skips recording by response status). -/
def caller (L : Limits) (count_failed : Bool) (bypass : Bool) (s : BucketState)
    (now : Int) {α : Type} (routeBody : α → α × Nat) (a : α) : CallerResult × α :=
  if bypass then
    let res := routeBody a
    let rs := calculate_remaining_requests L s now
    (.routeRan res.2 ⟨rs.1, L.requests, L.time_unit, reset_time rs.2 now⟩ rs.2, res.1)
  else
    match increment L s now with
    | .onCooldown s2 cd => (.cooldown429 cd s2, a)
    | .ok s2 rem =>
        let res := routeBody a
        (.routeRan res.2 ⟨rem, L.requests, L.time_unit, reset_time s2 now⟩ s2, res.1)

/-- Response of the auto-registered HEAD endpoint
(src/pixels/utils/ratelimits.py lines 111-127). -/
inductive HeadResult where
  | cooldownHeader (cooldownReset : Int) (s : BucketState)
  | quota (headers : RLHeaders) (s : BucketState)
deriving DecidableEq

/-- The bucket state a HEAD result leaves behind. -/
def HeadResult.finalState : HeadResult → BucketState
  | .cooldownHeader _ s => s
  | .quota _ s => s

/-- Embeds `head_endpoint` (src/pixels/utils/ratelimits.py lines 111-127):
answer `Cooldown-Reset` while on cooldown, else attach the quota headers
via `add_headers` — computing the remaining count without any
`_record_interaction`. -/
def head_endpoint (L : Limits) (s : BucketState) (now : Int) : HeadResult :=
  if check_cooldown s now then .cooldownHeader (get_remaining_cooldown s now) s
  else
    let rs := calculate_remaining_requests L s now
    .quota ⟨rs.1, L.requests, L.time_unit, reset_time rs.2 now⟩ rs.2

/-- A sequence of accounted requests against one bucket: each request at
its instant runs through `caller` (no bypass) with the same route body. -/
def processCalls (L : Limits) {α : Type} (routeBody : α → α × Nat) :
    BucketState → α → List Int → List CallerResult × BucketState × α
  | s, a, [] => ([], s, a)
  | s, a, t :: ts =>
      let r := caller L true false s t routeBody a
      let rest := processCalls L routeBody r.1.finalState r.2 ts
      (r.1 :: rest.1, rest.2)

/-- Whether a caller result executed the route body. -/
def CallerResult.ran : CallerResult → Bool
  | .routeRan _ _ _ => true
  | .cooldown429 _ _ => false

/-- The `PUT /pixel` route body at the `pixel_history` level: a successful
run of `Canvas.set_pixel` appends one history row and answers 200. -/
def putPixelBody (row : PHRow) : List PHRow → List PHRow × Nat :=
  fun hist => (hist ++ [row], 200)

/-! # Theorems -/

/-! ## C1 — default background of a rebuilt cache -/

/-- C1: the claim says a cache rebuilt by `Canvas._populate_cache` maps
every never-placed coordinate to FF FF FF (white).  The code initialises
the buffer with `bytearray(W*H*3)`, which is zero-filled: on a 2×1 canvas
with no placements the rebuilt buffer is six 00 bytes, and with a single
placement at (0, 0) the untouched pixel (1, 0) still reads 00 00 00 — not
FF FF FF.  The predecessor implementation (`april/canvas.py`,
`_empty_cache`, commented "ensure the default background is white") fills
with 255 as the claim and spec state. -/
theorem c1_rebuild_defaults_to_black :
    populate_cache 2 1 [] = some [0, 0, 0, 0, 0, 0]
    ∧ populate_cache 2 1 [⟨0, 0, "aabbcc"⟩] = some [0xaa, 0xbb, 0xcc, 0, 0, 0]
    ∧ april_reload_cache 2 1 [] = some [255, 255, 255, 255, 255, 255]
    ∧ (0xff : Nat) ≠ 0 := by
  refine ⟨by decide, by decide, by decide, by decide⟩

/-! ## C2 — what `authorized` maps to a state other than INVALID_TOKEN -/

/-- A user row that is banned but whose salt matches the token below. -/
def c2Users : Users := fun uid => if uid = 1 then some ⟨true, false, "salt1"⟩ else none

/-- A decoded token for user 1 carrying the row's current salt. -/
def c2Token : TokenData := ⟨1, "salt1"⟩

/-- C2 counterexample: for the banned user 1 with matching salt,
`authorized` returns `BANNED`, a state other than `INVALID_TOKEN`, yet
the claimed right-hand side ("the user row exists, its key_salt equals
the token's salt, and the user is not banned") is false — so the claimed
equivalence fails at this input. -/
theorem c2_counterexample :
    (authorizedDecoded c2Users c2Token).state ≠ AuthState.INVALID_TOKEN
    ∧ ¬ (∃ row, c2Users c2Token.id = some row ∧ row.key_salt = c2Token.salt
        ∧ row.is_banned = false) := by
  constructor
  · decide
  · rintro ⟨row, hrow, -, hban⟩
    have : row = ⟨true, false, "salt1"⟩ := by
      simpa [c2Users, c2Token] using hrow.symm
    simp [this] at hban

/-- C2 amended: for every decoded token, `authorized` returns a state
other than `INVALID_TOKEN` exactly when the user row exists and its
`key_salt` equals the token's salt; a banned user yields `BANNED` (not
`INVALID_TOKEN`). -/
theorem c2_not_invalid_iff_row_and_salt (users : Users) (td : TokenData) :
    (authorizedDecoded users td).state ≠ AuthState.INVALID_TOKEN
      ↔ ∃ row, users td.id = some row ∧ row.key_salt = td.salt := by
  unfold authorizedDecoded
  cases hrow : users td.id with
  | none => simp [hrow]
  | some row =>
      by_cases hsalt : row.key_salt = td.salt
      · by_cases hb : row.is_banned <;> by_cases hm : row.is_mod <;>
          simp [hsalt, hb, hm]
      · simp [hsalt]

/-- C2 amended, witness: user 2 exists with matching salt and is not
banned; the state is not INVALID_TOKEN. -/
theorem c2_not_invalid_iff_row_and_salt_witness :
    (authorizedDecoded (fun uid => if uid = 2 then some ⟨false, false, "s"⟩ else none)
      ⟨2, "s"⟩).state ≠ AuthState.INVALID_TOKEN :=
  (c2_not_invalid_iff_row_and_salt
    (fun uid => if uid = 2 then some ⟨false, false, "s"⟩ else none) ⟨2, "s"⟩).mpr
    ⟨⟨false, false, "s"⟩, by decide, rfl⟩

/-! ## C4 — the sliding-window limit trips on the (R+1)-th request -/

/-- One accounted request under the limit: the route body runs and the
bucket gains exactly the new mark. -/
theorem caller_step_ok (L : Limits) (row : PHRow) (s : BucketState)
    (a : List PHRow) (t : Int) (hT : 0 < L.time_unit)
    (hcool : s.cooldownUntil = none)
    (hlive : liveWindow s t = s.window)
    (hmarks : ∀ sc ∈ s.window, t < sc)
    (hroom : (s.window.length : Int) < L.requests) :
    ∃ hd, caller L true false s t (putPixelBody row) a
      = (.routeRan 200 hd
          ⟨s.window ++ [t + L.time_unit], some (t + L.time_unit), none⟩,
        a ++ [row]) := by
  have hcc : check_cooldown s t = false := by
    unfold check_cooldown
    rw [hcool]
  have hnow : t < t + L.time_unit := by linarith
  have hs1 : record_interaction L s t
      = ⟨s.window ++ [t + L.time_unit], some (t + L.time_unit), none⟩ := by
    unfold record_interaction
    rw [hlive, hcool]
  have hfilter : (s.window ++ [t + L.time_unit]).filter (fun sc => decide (t < sc))
      = s.window ++ [t + L.time_unit] := by
    apply List.filter_eq_self.mpr
    intro el hel
    rcases List.mem_append.mp hel with h1 | h2
    · simpa using hmarks el h1
    · have h3 : el = t + L.time_unit := by simpa using h2
      simp [h3, hnow]
  have hcalc : calculate_remaining_requests L
      ⟨s.window ++ [t + L.time_unit], some (t + L.time_unit), none⟩ t
      = (L.requests - ((s.window.length : Int) + 1),
        ⟨s.window ++ [t + L.time_unit], some (t + L.time_unit), none⟩) := by
    unfold calculate_remaining_requests liveWindow
    simp only [if_pos hnow]
    rw [hfilter]
    simp
  have hinc : increment L s t
      = .ok ⟨s.window ++ [t + L.time_unit], some (t + L.time_unit), none⟩
        (L.requests - ((s.window.length : Int) + 1)) := by
    unfold increment
    rw [hcc]
    simp only [Bool.false_eq_true, if_false]
    rw [hs1, hcalc]
    rw [if_neg (by omega)]
  refine ⟨⟨L.requests - ((s.window.length : Int) + 1), L.requests, L.time_unit,
    reset_time ⟨s.window ++ [t + L.time_unit], some (t + L.time_unit), none⟩ t⟩, ?_⟩
  unfold caller
  simp only [Bool.false_eq_true, if_false]
  rw [hinc]
  simp [putPixelBody]

/-- One accounted request at the limit: `_increment` raises `OnCooldown`,
the response is the 429 and the route body does not run. -/
theorem caller_step_429 (L : Limits) (row : PHRow) (s : BucketState)
    (a : List PHRow) (t : Int) (hT : 0 < L.time_unit)
    (hcool : s.cooldownUntil = none)
    (hlive : liveWindow s t = s.window)
    (hmarks : ∀ sc ∈ s.window, t < sc)
    (hfull : (s.window.length : Int) = L.requests) :
    ∃ cd s2, caller L true false s t (putPixelBody row) a
      = (.cooldown429 cd s2, a) := by
  have hcc : check_cooldown s t = false := by
    unfold check_cooldown
    rw [hcool]
  have hnow : t < t + L.time_unit := by linarith
  have hs1 : record_interaction L s t
      = ⟨s.window ++ [t + L.time_unit], some (t + L.time_unit), none⟩ := by
    unfold record_interaction
    rw [hlive, hcool]
  have hfilter : (s.window ++ [t + L.time_unit]).filter (fun sc => decide (t < sc))
      = s.window ++ [t + L.time_unit] := by
    apply List.filter_eq_self.mpr
    intro el hel
    rcases List.mem_append.mp hel with h1 | h2
    · simpa using hmarks el h1
    · have h3 : el = t + L.time_unit := by simpa using h2
      simp [h3, hnow]
  have hcalc : calculate_remaining_requests L
      ⟨s.window ++ [t + L.time_unit], some (t + L.time_unit), none⟩ t
      = (L.requests - ((s.window.length : Int) + 1),
        ⟨s.window ++ [t + L.time_unit], some (t + L.time_unit), none⟩) := by
    unfold calculate_remaining_requests liveWindow
    simp only [if_pos hnow]
    rw [hfilter]
    simp
  have hinc : ∃ s3 cd, increment L s t = .onCooldown s3 cd := by
    unfold increment
    rw [hcc]
    simp only [Bool.false_eq_true, if_false]
    rw [hs1, hcalc]
    rw [if_pos (by omega)]
    exact ⟨_, _, rfl⟩
  obtain ⟨s3, cd, hinc⟩ := hinc
  refine ⟨cd, s3, ?_⟩
  unfold caller
  simp only [Bool.false_eq_true, if_false]
  rw [hinc]

/-- From a fresh bucket, with every request instant inside one window of
every other, the first `R` accounted requests run the route and the next
one is answered 429 without running it. -/
theorem processCalls_trips (L : Limits) (row : PHRow) (hT : 0 < L.time_unit)
    (ts : List Int) : ∀ (s : BucketState) (a : List PHRow),
    s.cooldownUntil = none →
    (∀ t ∈ ts, liveWindow s t = s.window) →
    (∀ t ∈ ts, ∀ sc ∈ s.window, t < sc) →
    (∀ t1 ∈ ts, ∀ t2 ∈ ts, t2 < t1 + L.time_unit) →
    ((s.window.length : Int) + ts.length = L.requests + 1) →
    (processCalls L (putPixelBody row) s a ts).1.length = ts.length
    ∧ ((processCalls L (putPixelBody row) s a ts).1.take (ts.length - 1)).all
        CallerResult.ran = true
    ∧ (ts ≠ [] → ∃ cd s2,
        (processCalls L (putPixelBody row) s a ts).1.getLast?
          = some (.cooldown429 cd s2))
    ∧ (processCalls L (putPixelBody row) s a ts).2.2
        = a ++ List.replicate (ts.length - 1) row := by
  induction ts with
  | nil =>
      intro s a _ _ _ _ _
      simp [processCalls]
  | cons t rest ih =>
      intro s a hcool hlive hmarks hwin hk
      have htmem : t ∈ t :: rest := List.mem_cons_self t rest
      cases rest with
      | nil =>
          have hfull : (s.window.length : Int) = L.requests := by
            simp at hk
            omega
          obtain ⟨cd, s2, hstep⟩ := caller_step_429 L row s a t hT hcool
            (hlive t htmem) (hmarks t htmem) hfull
          refine ⟨?_, ?_, ?_, ?_⟩ <;>
            simp [processCalls, hstep]
      | cons t2 rest2 =>
          have hroom : (s.window.length : Int) < L.requests := by
            simp at hk
            omega
          obtain ⟨hd, hstep⟩ := caller_step_ok L row s a t hT hcool
            (hlive t htmem) (hmarks t htmem) hroom
          have hliv2 : ∀ t3 ∈ t2 :: rest2,
              liveWindow ⟨s.window ++ [t + L.time_unit], some (t + L.time_unit), none⟩ t3
                = s.window ++ [t + L.time_unit] := by
            intro t3 ht3
            have h3 : t3 < t + L.time_unit :=
              hwin t htmem t3 (List.mem_cons_of_mem t ht3)
            unfold liveWindow
            simp [h3]
          have hmark2 : ∀ t3 ∈ t2 :: rest2,
              ∀ sc ∈ s.window ++ [t + L.time_unit], t3 < sc := by
            intro t3 ht3 sc hsc
            rcases List.mem_append.mp hsc with h1 | h2
            · exact hmarks t3 (List.mem_cons_of_mem t ht3) sc h1
            · have h3 : sc = t + L.time_unit := by simpa using h2
              rw [h3]
              exact hwin t htmem t3 (List.mem_cons_of_mem t ht3)
          have hwin2 : ∀ t1 ∈ t2 :: rest2, ∀ t3 ∈ t2 :: rest2,
              t3 < t1 + L.time_unit := fun t1 h1 t3 h3 =>
            hwin t1 (List.mem_cons_of_mem t h1) t3 (List.mem_cons_of_mem t h3)
          have hk2 : (((s.window ++ [t + L.time_unit]).length : Int)
              + (t2 :: rest2).length = L.requests + 1) := by
            simp at hk ⊢
            omega
          have ihres := ih ⟨s.window ++ [t + L.time_unit], some (t + L.time_unit), none⟩
            (a ++ [row]) rfl hliv2 hmark2 hwin2 hk2
          obtain ⟨ihlen, ihtake, ihlast, ihhist⟩ := ihres
          have hproc : processCalls L (putPixelBody row) s a (t :: t2 :: rest2)
              = ((.routeRan 200 hd
                  ⟨s.window ++ [t + L.time_unit], some (t + L.time_unit), none⟩)
                :: (processCalls L (putPixelBody row)
                  ⟨s.window ++ [t + L.time_unit], some (t + L.time_unit), none⟩
                  (a ++ [row]) (t2 :: rest2)).1,
                (processCalls L (putPixelBody row)
                  ⟨s.window ++ [t + L.time_unit], some (t + L.time_unit), none⟩
                  (a ++ [row]) (t2 :: rest2)).2) := by
            have h0 : processCalls L (putPixelBody row) s a (t :: t2 :: rest2)
                = ((caller L true false s t (putPixelBody row) a).1 ::
                    (processCalls L (putPixelBody row)
                      (caller L true false s t (putPixelBody row) a).1.finalState
                      (caller L true false s t (putPixelBody row) a).2
                      (t2 :: rest2)).1,
                  (processCalls L (putPixelBody row)
                    (caller L true false s t (putPixelBody row) a).1.finalState
                    (caller L true false s t (putPixelBody row) a).2
                    (t2 :: rest2)).2) := rfl
            rw [h0, hstep]
            dsimp only [CallerResult.finalState]
          refine ⟨?_, ?_, ?_, ?_⟩
          · rw [hproc]
            simp [ihlen]
          · rw [hproc]
            simp only [List.length_cons, Nat.add_sub_cancel, List.take_succ_cons,
              List.all_cons]
            refine (Bool.and_eq_true _ _).mpr ⟨rfl, ?_⟩
            simpa using ihtake
          · intro _
            rw [hproc]
            obtain ⟨cd, s3, hlast⟩ := ihlast (by simp)
            refine ⟨cd, s3, ?_⟩
            cases hl : (processCalls L (putPixelBody row)
                ⟨s.window ++ [t + L.time_unit], some (t + L.time_unit), none⟩
                (a ++ [row]) (t2 :: rest2)).1 with
            | nil =>
                rw [hl] at ihlen
                simp at ihlen
            | cons y l2 =>
                rw [hl] at hlast
                dsimp only
                rw [List.getLast?_cons_cons]
                exact hlast
          · rw [hproc]
            simp only []
            rw [ihhist]
            simp [List.replicate_succ]

/-- C4: for a route limited to R requests per window with no bypass, a
user who starts fresh and issues R+1 accounted requests whose instants
all lie within one window gets the route body executed for the first R
of them and a 429 (`OnCooldown`) for the (R+1)-th, whose body never runs
— so the rejected pixel write appends no `pixel_history` row: the final
history holds exactly R new rows. -/
theorem c4_rate_limit_trips (L : Limits) (ts : List Int) (row : PHRow)
    (hist0 : List PHRow)
    (hpos : 0 ≤ L.requests)
    (hlen : (ts.length : Int) = L.requests + 1)
    (hwin : ∀ t1 ∈ ts, ∀ t2 ∈ ts, t2 < t1 + L.time_unit) :
    (processCalls L (putPixelBody row) .empty hist0 ts).1.length = ts.length
    ∧ ((processCalls L (putPixelBody row) .empty hist0 ts).1.take
        (ts.length - 1)).all CallerResult.ran = true
    ∧ (∃ cd s2, (processCalls L (putPixelBody row) .empty hist0 ts).1.getLast?
        = some (.cooldown429 cd s2))
    ∧ (processCalls L (putPixelBody row) .empty hist0 ts).2.2
        = hist0 ++ List.replicate (ts.length - 1) row := by
  have hne : ts ≠ [] := by
    intro h
    rw [h] at hlen
    simp at hlen
    omega
  have hT : 0 < L.time_unit := by
    cases hts : ts with
    | nil => exact absurd hts hne
    | cons t ts2 =>
        have hm : t ∈ ts := by
          rw [hts]
          exact List.mem_cons_self t ts2
        have := hwin t hm t hm
        linarith
  have h := processCalls_trips L row hT ts BucketState.empty hist0 rfl
    (fun t _ => rfl) (fun t _ sc hsc => absurd hsc (List.not_mem_nil sc))
    hwin (by rw [show ((BucketState.empty.window.length : Int)) = 0 from rfl]; omega)
  exact ⟨h.1, h.2.1, h.2.2.1 hne, h.2.2.2⟩

/-- C4 witness: limit 2 per 10-second window, cooldown 20, requests at
instants 0, 1, 2 — the first two pixel writes run, the third is a 429
and the history gains exactly two rows. -/
theorem c4_rate_limit_trips_witness :
    (processCalls ⟨2, 10, 20⟩ (putPixelBody ⟨1, 0, 0, "ff0000", 7, false⟩)
        .empty [] [0, 1, 2]).1.length = [0, 1, 2].length
    ∧ ((processCalls ⟨2, 10, 20⟩ (putPixelBody ⟨1, 0, 0, "ff0000", 7, false⟩)
        .empty [] [0, 1, 2]).1.take ([0, 1, 2].length - 1)).all
        CallerResult.ran = true
    ∧ (∃ cd s2, (processCalls ⟨2, 10, 20⟩ (putPixelBody ⟨1, 0, 0, "ff0000", 7, false⟩)
        .empty [] [0, 1, 2]).1.getLast? = some (.cooldown429 cd s2))
    ∧ (processCalls ⟨2, 10, 20⟩ (putPixelBody ⟨1, 0, 0, "ff0000", 7, false⟩)
        .empty [] [0, 1, 2]).2.2
      = [] ++ List.replicate ([0, 1, 2].length - 1) ⟨1, 0, 0, "ff0000", 7, false⟩ :=
  c4_rate_limit_trips ⟨2, 10, 20⟩ [0, 1, 2] ⟨1, 0, 0, "ff0000", 7, false⟩ []
    (by decide) (by decide) (by decide)

/-! ## C5 — when `is_cache_out_of_date` short-circuits to true -/

/-- C5 counterexample: on a 1×1 canvas (`W·H·3 = 3`) a cached buffer of
length 4 — one byte longer than `W·H·3` — is NOT treated as stale
unconditionally: `len(cache)//3 = 1 = W·H`, so the guard falls through to
the timestamp comparison, which here returns false. -/
theorem c5_counterexample :
    is_cache_out_of_date 1 1 ⟨some [0, 0, 0, 0], 0, 0⟩ = false
    ∧ ([0, 0, 0, 0].length ≠ 1 * 1 * 3) := by
  refine ⟨by decide, by decide⟩

/-- C5 amended: `is_cache_out_of_date` returns true unconditionally —
regardless of `last_modified` / `last_synced` — exactly for a cached
value that is missing, empty, or whose length floor-divided by 3 differs
from `W·H`; a buffer of length `W·H·3 + 1` or `W·H·3 + 2` instead falls
through to the timestamp comparison. -/
theorem c5_short_length_is_stale (W H : Nat) (cs : CacheState)
    (h : cs.cache = none
      ∨ ∃ c, cs.cache = some c ∧ (c.length = 0 ∨ c.length / 3 ≠ W * H)) :
    is_cache_out_of_date W H cs = true := by
  unfold is_cache_out_of_date
  rcases h with h | ⟨c, hc, hlen⟩
  · rw [h]
  · rw [hc]
    simp only [Bool.if_true_left, Bool.decide_or, Bool.or_eq_true, decide_eq_true_eq,
      List.length_eq_zero, ne_eq]
    rcases hlen with h0 | h3
    · exact Or.inl (Or.inl (List.length_eq_zero.mp h0))
    · exact Or.inl (Or.inr h3)

/-- C5 amended, witness: a missing buffer, an empty buffer, and a 2-byte
buffer on a 1×1 canvas are each treated as stale whatever the
timestamps; the one-byte-longer buffer of the counterexample is not. -/
theorem c5_short_length_is_stale_witness :
    is_cache_out_of_date 1 1 ⟨none, 0, 5⟩ = true
    ∧ is_cache_out_of_date 1 1 ⟨some [], 0, 5⟩ = true
    ∧ is_cache_out_of_date 1 1 ⟨some [0, 0], 0, 5⟩ = true :=
  ⟨c5_short_length_is_stale 1 1 ⟨none, 0, 5⟩ (Or.inl rfl),
    c5_short_length_is_stale 1 1 ⟨some [], 0, 5⟩ (Or.inr ⟨[], rfl, by decide⟩),
    c5_short_length_is_stale 1 1 ⟨some [0, 0], 0, 5⟩ (Or.inr ⟨[0, 0], rfl, by decide⟩)⟩

/-! ## C7 — `count_failed_requests` is never consulted -/

/-- C7: the claim says that with `count_failed_requests = false` a 4xx
response does not consume window quota.  In the Redis bucket the
interaction is recorded inside `_increment` before the route body runs
and no code path ever reads `COUNT_FAILED` or removes the mark: on a
fresh bucket with limit 2, a request whose route answers 404 still
leaves one mark in the window, so the next request sees 1 remaining
where 2 were remaining before.  The final conjunct shows `caller` is
literally independent of the `count_failed` argument. -/
theorem c7_failed_request_still_consumes_quota :
    caller ⟨2, 10, 20⟩ false false .empty 0 (fun (h : List PHRow) => (h, 404)) []
      = (.routeRan 404 ⟨1, 2, 10, 10⟩ ⟨[10], some 10, none⟩, ([] : List PHRow))
    ∧ (calculate_remaining_requests ⟨2, 10, 20⟩ .empty 0).1 = 2
    ∧ (calculate_remaining_requests ⟨2, 10, 20⟩ ⟨[10], some 10, none⟩ 1).1 = 1
    ∧ ((1 : Int) ≠ 2)
    ∧ ∀ (L : Limits) (b1 b2 byp : Bool) (s : BucketState) (now : Int)
        (α : Type) (routeBody : α → α × Nat) (a : α),
        caller L b1 byp s now routeBody a = caller L b2 byp s now routeBody a := by
  refine ⟨by decide, by decide, by decide, by decide,
    fun L b1 b2 byp s now α routeBody a => rfl⟩

/-! ## C9 — GET /pixel accepts negative coordinates -/

/-- C9: the handler rejects only when `x ≥ W` or `y ≥ H`; any coordinate
pair with a negative `x` (and `y < H`) or a negative `y` (and `x < W`)
flows into `Canvas.get_pixel`, whose byte offset `(y·W + x)·3` is
negative whenever `y ≤ 0` (so Redis reads the range from the end of the
buffer) and, at `x = -1, y ≥ 1`, equals the offset of the in-bounds
pixel `(W-1, y-1)` — the returned 3-byte range belongs to a different
pixel. -/
theorem c9_negative_coordinates_pass (W H : Nat) (buf : List Nat) (x y : Int)
    (hW : 0 < W) (hx : x < (W : Int)) (hy : y < (H : Int))
    (hneg : x < 0 ∨ y < 0) :
    get_pixel_endpoint W H buf x y = .ok (canvas_get_pixel W buf x y)
    ∧ (1 ≤ y → x = -1 →
        pixelPosition W x y = pixelPosition W ((W : Int) - 1) (y - 1)
        ∧ 0 ≤ (W : Int) - 1 ∧ (W : Int) - 1 < W ∧ 0 ≤ y - 1 ∧ y - 1 < H)
    ∧ (y ≤ 0 → pixelPosition W x y < 0) := by
  have hW1 : (1 : Int) ≤ (W : Int) := by exact_mod_cast hW
  refine ⟨?_, ?_, ?_⟩
  · unfold get_pixel_endpoint
    have : ¬ (x ≥ (W : Int) ∨ y ≥ (H : Int)) := by
      push_neg
      exact ⟨hx, hy⟩
    simp [this]
  · intro hy1 hx1
    subst hx1
    refine ⟨?_, by linarith, by linarith, by linarith, by linarith⟩
    unfold pixelPosition
    ring
  · intro hy0
    have hsum : y * (W : Int) + x < 0 := by
      rcases hneg with hxneg | hyneg
      · have hyW : y * (W : Int) ≤ 0 :=
          mul_nonpos_of_nonpos_of_nonneg hy0 (by positivity)
        linarith
      · have hyW : y * (W : Int) ≤ (-1) * (W : Int) := by
          apply mul_le_mul_of_nonneg_right _ (by positivity)
          linarith
        linarith
    unfold pixelPosition
    have h3 := mul_neg_of_neg_of_pos hsum (by norm_num : (0 : Int) < 3)
    linarith

/-! ## C6 — the auto-registered HEAD endpoint -/

/-- Pruning twice is pruning once. -/
theorem filter_lt_idem (now : Int) (l : List Int) :
    (l.filter (fun sc => now < sc)).filter (fun sc => now < sc)
      = l.filter (fun sc => now < sc) := by
  simp [List.filter_filter]

/-- The state `_calculate_remaining_requests` leaves behind holds exactly
the unexpired marks. -/
theorem liveWindow_prune (L : Limits) (s : BucketState) (now : Int) :
    liveWindow (calculate_remaining_requests L s now).2 now
      = (liveWindow s now).filter (fun sc => now < sc) := by
  unfold calculate_remaining_requests liveWindow
  cases hke : s.keyExpireAt with
  | none => simp
  | some e =>
      by_cases hlt : now < e
      · simp [hlt]
      · simp [hlt]

/-- The remaining count `_calculate_remaining_requests` reports. -/
theorem calc_fst (L : Limits) (s : BucketState) (now : Int) :
    (calculate_remaining_requests L s now).1
      = L.requests - ((liveWindow s now).filter (fun sc => now < sc)).length := rfl

/-- Recording appends one mark (with a positive window the refreshed key
is alive at the recording instant). -/
theorem liveWindow_record (L : Limits) (s : BucketState) (now : Int)
    (hT : 0 < L.time_unit) :
    liveWindow (record_interaction L s now) now
      = liveWindow s now ++ [now + L.time_unit] := by
  have hnow : now < now + L.time_unit := by linarith
  unfold record_interaction liveWindow
  simp [hnow]

/-- C6 counterexample: the sibling HEAD endpoint of the GET /pixel route
is registered at `/get_pixel`, not at the route's own path `/pixel`; and
on a fresh bucket with limit 8 the HEAD probe reports
`Requests-Remaining: 8` while the subsequent accounted call reports 7 —
not the same headers.  (The claim's conjunction fails at this input.) -/
theorem c6_counterexample :
    head_route_path get_pixel_handler_name ≠ get_pixel_route_path
    ∧ head_endpoint ⟨8, 10, 120⟩ .empty 0 = .quota ⟨8, 8, 10, -1⟩ .empty
    ∧ (caller ⟨8, 10, 120⟩ true false .empty 0 (fun (u : Unit) => (u, 200)) ()).1
        = .routeRan 200 ⟨7, 8, 10, 10⟩ ⟨[10], some 10, none⟩
    ∧ ((7 : Int) ≠ 8) := by
  refine ⟨by decide, by decide, by decide, by decide⟩

/-- C6 amended: the limiter registers the sibling HEAD endpoint at
`"/" ++ handler name` — `/get_pixel` for the GET `/pixel` route, not the
route's path.  The HEAD endpoint never records an interaction: on
cooldown it returns `Cooldown-Reset` and leaves the state untouched;
otherwise it returns `Requests-Remaining` equal to the limit minus the
unexpired marks (with the configured `Requests-Limit` and
`Requests-Period`), only pruning already-expired marks and leaving the
cooldown state unchanged — and an immediately following accounted call
reports one fewer remaining request than the probe did. -/
theorem c6_head_probe_behaviour :
    (head_route_path get_pixel_handler_name = "/get_pixel"
      ∧ get_pixel_route_path = "/pixel")
    ∧ (∀ (L : Limits) (s : BucketState) (now cd : Int) (s2 : BucketState),
        head_endpoint L s now = .cooldownHeader cd s2 →
        s2 = s ∧ cd = get_remaining_cooldown s now)
    ∧ (∀ (L : Limits) (s : BucketState) (now : Int) (hd : RLHeaders)
        (s2 : BucketState),
        head_endpoint L s now = .quota hd s2 →
        s2.cooldownUntil = s.cooldownUntil
        ∧ liveWindow s2 now = (liveWindow s now).filter (fun sc => now < sc)
        ∧ hd.remaining
            = L.requests - ((liveWindow s now).filter (fun sc => now < sc)).length
        ∧ hd.limit = L.requests ∧ hd.period = L.time_unit)
    ∧ (∀ (L : Limits) (s : BucketState) (now : Int) (hd : RLHeaders)
        (s2 s3 : BucketState) (rem : Int),
        0 < L.time_unit →
        head_endpoint L s now = .quota hd s2 →
        increment L s2 now = .ok s3 rem →
        rem = hd.remaining - 1) := by
  refine ⟨⟨rfl, rfl⟩, ?_, ?_, ?_⟩
  · intro L s now cd s2 h
    unfold head_endpoint at h
    by_cases hc : check_cooldown s now
    · rw [if_pos hc] at h
      cases h
      exact ⟨rfl, rfl⟩
    · rw [if_neg hc] at h
      exact absurd h (by simp)
  · intro L s now hd s2 h
    unfold head_endpoint at h
    by_cases hc : check_cooldown s now
    · rw [if_pos hc] at h
      exact absurd h (by simp)
    · rw [if_neg hc] at h
      cases h
      exact ⟨rfl, liveWindow_prune L s now, rfl, rfl, rfl⟩
  · intro L s now hd s2 s3 rem hT hh hi
    unfold head_endpoint at hh
    by_cases hc : check_cooldown s now
    · rw [if_pos hc] at hh
      exact absurd hh (by simp)
    · rw [if_neg hc] at hh
      cases hh
      unfold increment at hi
      have hc2 : check_cooldown (calculate_remaining_requests L s now).2 now
          = check_cooldown s now := rfl
      rw [hc2, if_neg hc] at hi
      have hnow : now < now + L.time_unit := by linarith
      have hlw : liveWindow
          (record_interaction L (calculate_remaining_requests L s now).2 now) now
          = (liveWindow s now).filter (fun sc => now < sc) ++ [now + L.time_unit] := by
        rw [liveWindow_record L _ now hT, liveWindow_prune]
      have hcount : (calculate_remaining_requests L
          (record_interaction L (calculate_remaining_requests L s now).2 now) now).1
          = L.requests
            - (((liveWindow s now).filter (fun sc => now < sc)).length + 1 : Nat) := by
        rw [calc_fst, hlw, List.filter_append, filter_lt_idem]
        simp [hnow]
      by_cases hneg : (calculate_remaining_requests L
          (record_interaction L (calculate_remaining_requests L s now).2 now) now).1 < 0
      · rw [if_pos hneg] at hi
        exact absurd hi (by simp)
      · rw [if_neg hneg] at hi
        cases hi
        simp only [hcount, calc_fst]
        push_cast
        ring

/-! ## C8 — salt rotation invalidates prior tokens -/

/-- C8: any token `t` issued to a user before a later successful
`reset_user_token` whose fresh salt differs from `t.salt` is afterwards
rejected as `INVALID_TOKEN`: the upsert rewrote the row's `key_salt` to
the fresh salt, so the salt comparison in `authorized` fails. -/
theorem c8_reset_invalidates_old_tokens (users : Users) (user_id : Int)
    (token_salt : String) (is_mod : Bool) (users2 : Users) (tok2 : TokenData)
    (t : TokenData)
    (hreset : pixels_reset_user_token users user_id token_salt is_mod
      = .ok (users2, tok2))
    (hid : t.id = user_id) (hsalt : t.salt ≠ token_salt) :
    (authorizedDecoded users2 t).state = AuthState.INVALID_TOKEN := by
  have hsalt2 : token_salt ≠ t.salt := fun h => hsalt h.symm
  unfold pixels_reset_user_token at hreset
  by_cases hb : (users user_id).elim false (fun r => r.is_banned)
  · rw [if_pos hb] at hreset
    exact absurd hreset (by simp)
  · rw [if_neg hb] at hreset
    cases hreset
    unfold authorizedDecoded upsertSalt
    rw [hid]
    cases hu : users user_id with
    | none => simp [hu, hsalt2]
    | some row => simp [hu, hsalt2]

/-- C8 witness: mint user 1 a first token with salt "a"; a later reset
with fresh salt "b" makes the old token read INVALID_TOKEN. -/
theorem c8_reset_invalidates_old_tokens_witness :
    (authorizedDecoded (upsertSalt (fun _ => none) 1 "b" false)
      ⟨1, "a"⟩).state = AuthState.INVALID_TOKEN :=
  c8_reset_invalidates_old_tokens (fun _ => none) 1 "b" false
    (upsertSalt (fun _ => none) 1 "b" false) ⟨1, "b"⟩ ⟨1, "a"⟩ rfl rfl (by decide)

/-! ## C3 — the ban cascade -/

/-- C3: a successful `ban_users` call partitions the input into the ids
with a `users` row (banned) and those without (not_found); it marks every
listed existing user `is_banned`, marks every `pixel_history` row of
those users `deleted`, leaves all other users untouched, and rebuilds the
canvas cache from the post-ban history via `sync_cache` with
`skip_check = true` (which also advances `last_synced`). -/
theorem c3_ban_users (W H : Nat) (now : Int) (db : AppDB) (input : List Int)
    (db2 : AppDB) (resp : ModBan)
    (h : ban_users W H now db input = some (db2, resp)) :
    (∀ uid, uid ∈ resp.banned ↔ uid ∈ input ∧ (db.users uid).isSome)
    ∧ (∀ uid, uid ∈ resp.not_found ↔ uid ∈ input ∧ (db.users uid).isNone)
    ∧ (∀ uid, uid ∈ resp.banned →
        db2.users uid = (db.users uid).map (fun r => { r with is_banned := true }))
    ∧ (∀ uid, uid ∉ resp.banned → db2.users uid = db.users uid)
    ∧ db2.history = deleteHistoryOf db.history resp.banned
    ∧ (∀ r2, r2 ∈ db2.history → r2.user_id ∈ resp.banned → r2.deleted = true)
    ∧ sync_cache W H db2.history db.cacheState now true = some db2.cacheState
    ∧ db2.cacheState.cache = populate_cache W H (rebuildRecords W H db2.history)
    ∧ db2.cacheState.last_synced = now := by
  unfold ban_users at h
  cases hsync : sync_cache W H (deleteHistoryOf db.history (dbUsersOf db.users input))
      db.cacheState now true with
  | none =>
      rw [hsync] at h
      exact absurd h (by simp)
  | some cs2 =>
      rw [hsync] at h
      simp only [Option.map_some']  at h
      cases h
      have hpop : ∃ buf, populate_cache W H (rebuildRecords W H
          (deleteHistoryOf db.history (dbUsersOf db.users input))) = some buf
          ∧ cs2 = ⟨some buf, db.cacheState.last_modified, now⟩ := by
        unfold sync_cache at hsync
        rw [if_pos (Or.inl rfl)] at hsync
        cases hbuf : populate_cache W H (rebuildRecords W H
            (deleteHistoryOf db.history (dbUsersOf db.users input))) with
        | none =>
            rw [hbuf] at hsync
            exact absurd hsync (by simp)
        | some buf =>
            rw [hbuf] at hsync
            simp only [Option.map_some']  at hsync
            cases hsync
            exact ⟨buf, rfl, rfl⟩
      obtain ⟨buf, hbuf, hcs2⟩ := hpop
      refine ⟨?_, ?_, ?_, ?_, rfl, ?_, hsync, ?_, ?_⟩
      · intro uid
        unfold dbUsersOf
        simp [List.mem_filter, List.mem_dedup]
      · intro uid
        unfold nonDbUsersOf
        simp [List.mem_filter, List.mem_dedup]
      · intro uid hmem
        have hmem2 : uid ∈ dbUsersOf db.users input := hmem
        show banRows db.users (dbUsersOf db.users input) uid = _
        unfold banRows
        rw [if_pos hmem2]
      · intro uid hmem
        have hmem2 : uid ∉ dbUsersOf db.users input := hmem
        show banRows db.users (dbUsersOf db.users input) uid = _
        unfold banRows
        rw [if_neg hmem2]
      · intro r2 hr2 hmem
        have hr3 : r2 ∈ deleteHistoryOf db.history (dbUsersOf db.users input) := hr2
        have hmem2 : r2.user_id ∈ dbUsersOf db.users input := hmem
        unfold deleteHistoryOf at hr3
        rcases List.mem_map.mp hr3 with ⟨r0, hr0, hmap⟩
        by_cases hm0 : r0.user_id ∈ dbUsersOf db.users input
        · rw [if_pos hm0] at hmap
          rw [← hmap]
        · rw [if_neg hm0] at hmap
          rw [← hmap] at hmem2
          exact absurd hmem2 hm0
      · show cs2.cache = _
        rw [hcs2, hbuf]
      · show cs2.last_synced = now
        rw [hcs2]

/-- Concrete database for the C3 witness: user 1 exists un-banned with
one history row; the cache holds a 1×1 canvas. -/
def c3DB : AppDB :=
  { users := fun uid => if uid = 1 then some ⟨false, false, "s1"⟩ else none,
    history := [⟨1, 0, 0, "aabbcc", 1, false⟩],
    cacheState := ⟨some [0, 0, 0], 0, 0⟩ }

/-- The input list of the C3 witness: user 1 exists, user 2 does not. -/
def c3Input : List Int := [1, 2]

/-- The database `ban_users` leaves behind in the C3 witness. -/
def c3DB2 : AppDB :=
  { users := banRows c3DB.users (dbUsersOf c3DB.users c3Input),
    history := deleteHistoryOf c3DB.history (dbUsersOf c3DB.users c3Input),
    cacheState :=
      { cache := populate_cache 1 1 (rebuildRecords 1 1
          (deleteHistoryOf c3DB.history (dbUsersOf c3DB.users c3Input))),
        last_modified := 0, last_synced := 5 } }

/-- The response `ban_users` returns in the C3 witness. -/
def c3Resp : ModBan :=
  ⟨dbUsersOf c3DB.users c3Input, nonDbUsersOf c3DB.users c3Input⟩

/-- C3 witness: banning `[1, 2]` on `c3DB` reports 1 banned (2 unknown),
deletes user 1's history row and rebuilds the cache at instant 5. -/
theorem c3_ban_users_witness :
    ((1 : Int) ∈ c3Resp.banned ↔ (1 : Int) ∈ c3Input ∧ (c3DB.users 1).isSome)
    ∧ ((2 : Int) ∈ c3Resp.not_found ↔ (2 : Int) ∈ c3Input ∧ (c3DB.users 2).isNone)
    ∧ c3DB2.history = deleteHistoryOf c3DB.history c3Resp.banned
    ∧ c3DB2.cacheState.last_synced = 5 := by
  have h := c3_ban_users 1 1 5 c3DB c3Input c3DB2 c3Resp rfl
  exact ⟨h.1 1, h.2.1 2, h.2.2.2.2.1, h.2.2.2.2.2.2.2.2⟩

/-! ## C10 — callback-minted tokens never pass `JWTBearer` -/

/-- C10: `utils/auth.py`'s `reset_user_token` (the OAuth callback path)
mints tokens with `grant_type = "authorization_code"`; `JWTBearer`
rejects any token whose grant_type is not "refresh_token" with
`WRONG_TOKEN` even when the salt matches, the token is unexpired and the
user is not banned; a request passes the bearer check only with
grant_type "refresh_token", which only `generate_access_token` mints. -/
theorem c10_callback_tokens_rejected (users : Users) (user_id : Int)
    (token_salt : String) (is_mod m : Bool) (now refresh_expires_in now2 : Int)
    (users2 : Users) (tok : JwtPayload)
    (hreset : auth_reset_user_token users user_id token_salt is_mod now
      refresh_expires_in = .ok (users2, tok))
    (hexp : ¬ (tok.expiration < now2)) :
    tok.grant_type = "authorization_code"
    ∧ jwtBearerCheck m users2 now2 (some tok) = .httpError 403 .WRONG_TOKEN
    ∧ (∀ (users3 : Users) (now3 uid : Int) (td : JwtPayload) (m2 : Bool),
        jwtBearerCheckDecoded m2 users3 now3 td = .ok uid →
        td.grant_type = "refresh_token")
    ∧ (∀ (users3 : Users) (td : JwtPayload)
        (now3 a r : Int) (salt2 : String) (im : Bool)
        (tokA tokR : JwtPayload) (users4 : Users),
        generate_access_token_decoded users3 td now3 a r salt2 im
          = .ok (tokA, tokR, users4) →
        tokA.grant_type = "refresh_token") := by
  unfold auth_reset_user_token at hreset
  by_cases hb : (users user_id).elim false (fun r => r.is_banned)
  · rw [if_pos hb] at hreset
    exact absurd hreset (by simp)
  · rw [if_neg hb] at hreset
    cases hreset
    refine ⟨rfl, ?_, ?_, ?_⟩
    · show jwtBearerCheckDecoded m _ now2 _ = _
      unfold jwtBearerCheckDecoded upsertSalt
      cases hu : users user_id with
      | none => simp [hu, hexp]
      | some row => simp [hu, hexp]
    · intro users3 now3 uid td m2 h
      by_contra hg
      unfold jwtBearerCheckDecoded at h
      rcases hu : users3 td.id with - | row
      · rw [hu] at h
        simp at h
      · rw [hu] at h
        by_cases hc : row.key_salt ≠ td.salt ∨ td.expiration < now3
        · simp [hc] at h
        · simp only [if_neg hc, if_pos hg] at h
          simp at h
    · intro users3 td now3 a r salt2 im tokA tokR users4 h
      unfold generate_access_token_decoded at h
      rcases hu : users3 td.id with - | row
      · rw [hu] at h
        simp at h
      · rw [hu] at h
        by_cases hb2 : row.is_banned
        · simp [hb2] at h
        · by_cases hs : row.key_salt ≠ td.salt
          · simp [hb2, hs] at h
          · by_cases he : td.expiration < now3
            · simp only [hb2, hs, he, if_true, if_false,
                Bool.false_eq_true, not_false_eq_true] at h
              cases hr : auth_reset_user_token users3 td.id salt2 im now3 r with
              | error e2 =>
                  rw [hr] at h
                  simp at h
              | ok p =>
                  obtain ⟨users5, newRefresh⟩ := p
                  rw [hr] at h
                  cases h
                  rfl
            · simp only [hb2, hs, he, if_true, if_false,
                Bool.false_eq_true, not_false_eq_true] at h
              cases h
              rfl

/-- C10 witness: with an empty users table, resetting user 1 at instant 0
with salt "s2" and a 100-second refresh lifetime mints an
authorization_code token that `JWTBearer` rejects at instant 50 with
WRONG_TOKEN. -/
theorem c10_callback_tokens_rejected_witness :
    (⟨1, "authorization_code", 0 + 100, "s2"⟩ : JwtPayload).grant_type
      = "authorization_code"
    ∧ jwtBearerCheck false (upsertSalt (fun _ => none) 1 "s2" false) 50
        (some ⟨1, "authorization_code", 0 + 100, "s2"⟩)
      = .httpError 403 .WRONG_TOKEN := by
  have h := c10_callback_tokens_rejected (fun _ => none) 1 "s2" false false 0
    100 50 (upsertSalt (fun _ => none) 1 "s2" false)
    ⟨1, "authorization_code", 0 + 100, "s2"⟩ rfl (by decide)
  exact ⟨h.1, h.2.1⟩

/-- C9 witness: on the real 272×153 canvas the query `x = -1, y = 1` is
not rejected and its offset aliases pixel (271, 0). -/
theorem c9_negative_coordinates_pass_witness :
    get_pixel_endpoint Sizes_WIDTH Sizes_HEIGHT [] (-1) 1
      = .ok (canvas_get_pixel Sizes_WIDTH [] (-1) 1)
    ∧ pixelPosition Sizes_WIDTH (-1) 1
        = pixelPosition Sizes_WIDTH ((Sizes_WIDTH : Int) - 1) 0 := by
  have h := c9_negative_coordinates_pass Sizes_WIDTH Sizes_HEIGHT [] (-1) 1
    (by decide) (by decide) (by decide) (Or.inl (by decide))
  refine ⟨h.1, ?_⟩
  have h2 := (h.2.1 (by decide) rfl).1
  simpa using h2
